import Mathlib

/-!
Shallow embedding of Trycycler's orchestration module (`trycycler/__main__.py`).

The module parses arguments, validates the read file, the contig files and the
output directory, loads the contigs into a letter-keyed ordered mapping, and
then drives the reconciliation pipeline: starting-sequence selection,
optional circularisation and rotation, per-base scoring, pairwise alignment,
consensus building, with two FASTA outputs.

Files are modelled abstractly as a filename together with a detected format
and a list of FASTA records; `sys.exit` calls become an explicit error type;
the pipeline stages implemented in other modules (not part of the sources)
are abstract stage functions threaded through the model, and the global
`random` state is modelled as a natural number threaded through the stages.
-/

namespace Trycycler

/-- Result of `get_sequence_file_type`: the detected format of a sequence file. -/
inductive FileType where
  | FASTA
  | FASTQ
  | other
deriving DecidableEq

/-- Abstract model of a sequence file on disk: its name, its detected format,
and the list of (record name, sequence) pairs it contains. -/
structure SeqFile where
  filename : String
  ftype : FileType
  records : List (String × String)
deriving DecidableEq

/-- Model of `get_sequence_file_type(filename)`. -/
def get_sequence_file_type (f : SeqFile) : FileType :=
  f.ftype

/-- Model of `load_fasta(filename)`: the list of (name, sequence) records. -/
def load_fasta (f : SeqFile) : List (String × String) :=
  f.records

/-- Modelled from the spec: `settings.MAX_INPUT_CONTIGS`, the configured
candidate-count ceiling (the `settings` module is not among the sources).
Labels are drawn from `string.ascii_uppercase`, whose length is 26, so the
ceiling is 26. -/
def MAX_INPUT_CONTIGS : Nat := 26

/-- Python's `string.ascii_uppercase`, as the list of one-letter label strings. -/
def asciiUppercase : List String :=
  ["A", "B", "C", "D", "E", "F", "G", "H", "I", "J", "K", "L", "M",
   "N", "O", "P", "Q", "R", "S", "T", "U", "V", "W", "X", "Y", "Z"]

/-- Every `sys.exit(...)` site of the module, one constructor per call site. -/
inductive ExitError where
  | readsNotFastq (filename : String)
  | tooFewContigs
  | tooManyContigs
  | contigNotFasta (filename : String)
  | contigNoSeqs (filename : String)
  | contigMultipleSeqs (filename : String)
  | duplicateContigName (contigName : String)
  | outDirIsFile (directory : String)
deriving DecidableEq

/-- The exact message text passed to `sys.exit` at each exit site. -/
def ExitError.message : ExitError → String
  | .readsNotFastq f => "Error: input reads (" ++ f ++ ") are not in FASTQ format"
  | .tooFewContigs => "Error: two or more input contigs are required"
  | .tooManyContigs =>
      "Error: you cannot have more than " ++ toString MAX_INPUT_CONTIGS ++ " input contigs"
  | .contigNotFasta f => "Error: input contig file (" ++ f ++ ") is not in FASTA format"
  | .contigNoSeqs f => "Error: input contig file (" ++ f ++ ") contains no sequences"
  | .contigMultipleSeqs f => "Error: input contig file (" ++ f ++ ") contains multiple sequences"
  | .duplicateContigName n => "Error: duplicate contig name: " ++ n
  | .outDirIsFile d => "Error: output directory (" ++ d ++ ") already exists as a file"

/-- Model of `check_input_reads(filename)`: exit unless the file is FASTQ
(the statistics that follow are only logged). -/
def checkInputReads (reads : SeqFile) : Except ExitError Unit :=
  if get_sequence_file_type reads ≠ FileType.FASTQ then
    Except.error (ExitError.readsNotFastq reads.filename)
  else
    Except.ok ()

/-- The per-file loop of `check_input_contigs`: format check, record-count
checks, then the duplicate-name check against the names seen so far. -/
def checkContigsLoop (seen : List String) : List SeqFile → Except ExitError Unit
  | [] => Except.ok ()
  | f :: rest =>
    if get_sequence_file_type f ≠ FileType.FASTA then
      Except.error (ExitError.contigNotFasta f.filename)
    else
      match load_fasta f with
      | [] => Except.error (ExitError.contigNoSeqs f.filename)
      | [(contigName, _)] =>
          if contigName ∈ seen then
            Except.error (ExitError.duplicateContigName contigName)
          else
            checkContigsLoop (contigName :: seen) rest
      | _ :: _ :: _ => Except.error (ExitError.contigMultipleSeqs f.filename)

/-- Model of `check_input_contigs(filenames)`: count bounds, then the per-file
loop starting from an empty set of seen names. -/
def checkInputContigs (filenames : List SeqFile) : Except ExitError Unit :=
  if filenames.length < 2 then
    Except.error ExitError.tooFewContigs
  else if filenames.length > MAX_INPUT_CONTIGS then
    Except.error ExitError.tooManyContigs
  else
    checkContigsLoop [] filenames

/-- Status of the output path on disk when `check_output_directory` runs. -/
inductive PathStatus where
  | isFile
  | isDir
  | absent
deriving DecidableEq

/-- The directory-creating side effect `directory.mkdir(parents=True)`. -/
inductive DirAction where
  | mkdirParents
deriving DecidableEq

/-- Model of `check_output_directory(directory)`: fatal if the path is a
regular file, a log-only no-op if it is already a directory, and a
parent-creating mkdir if it is absent. -/
def checkOutputDirectory (directory : String) (status : PathStatus) :
    Except ExitError (Option DirAction) :=
  match status with
  | PathStatus.isFile => Except.error (ExitError.outDirIsFile directory)
  | PathStatus.isDir => Except.ok none
  | PathStatus.absent => Except.ok (some DirAction.mkdirParents)

/-- An ordered mapping from display label to sequence (a Python dict keeps
insertion order, so a list of pairs). -/
def ContigSet : Type := List (String × String)

instance : DecidableEq ContigSet := by
  unfold ContigSet
  infer_instance

/-- The loop body of `load_contig_sequences`, carrying the running index used
for `string.ascii_uppercase[i]`. `none` models a crash: an `IndexError` on the
label lookup or a failure of the `assert len(seqs) == 1`. -/
def loadContigLoop (i : Nat) : List SeqFile → Option ContigSet
  | [] => some []
  | f :: rest =>
    match asciiUppercase[i]? with
    | none => none
    | some letter =>
      match load_fasta f with
      | [(_, seq)] => (loadContigLoop (i + 1) rest).map (fun m => (letter, seq) :: m)
      | _ => none

/-- Model of `load_contig_sequences(filenames)`. -/
def loadContigSequences (filenames : List SeqFile) : Option ContigSet :=
  loadContigLoop 0 filenames

/-- Model of `save_seqs_to_fasta(seqs, filename)`: the list of strings passed
to `fasta.write`, in order — for each entry a header write and a sequence
write, each with a trailing newline. -/
def saveSeqsToFasta : List (String × String) → List String
  | [] => []
  | (name, seq) :: rest => (">" ++ name ++ "\n") :: (seq ++ "\n") :: saveSeqsToFasta rest

/-- The characters of the file produced by a list of writes. -/
def writtenChars : List String → List Char
  | [] => []
  | w :: ws => w.data ++ writtenChars ws

/-- Split a character stream into its newline-separated lines (a final
newline yields a trailing empty segment, as Python write calls would leave). -/
def splitLines : List Char → List (List Char)
  | [] => [[]]
  | c :: cs =>
    if c = '\n' then
      [] :: splitLines cs
    else
      match splitLines cs with
      | [] => [[c]]
      | l :: ls => (c :: l) :: ls

/-- Model of `args.circular = not args.not_circular` in `get_arguments`. -/
def circularFlag (notCircular : Bool) : Bool :=
  !notCircular

/-- Model of `random.seed(0)`: the generator state determined by a seed. -/
def randomSeed (n : Nat) : Nat :=
  n

/-- The parsed arguments `main` consumes, together with the state of the
output path on disk. -/
structure MainArgs where
  contigs : List SeqFile
  reads : SeqFile
  outDir : String
  outDirStatus : PathStatus
  threads : Nat
  notCircular : Bool
deriving DecidableEq

/-- Model of `check_inputs_and_requirements(args)`: reads, then contigs, then
the output directory (`check_required_software` is a no-op). -/
def checkInputsAndRequirements (args : MainArgs) : Except ExitError (Option DirAction) :=
  match checkInputReads args.reads with
  | Except.error e => Except.error e
  | Except.ok _ =>
    match checkInputContigs args.contigs with
    | Except.error e => Except.error e
    | Except.ok _ => checkOutputDirectory args.outDir args.outDirStatus

/-- The pipeline stages of `main`, in execution order, as trace events; the
two `save_seqs_to_fasta` calls carry their destination filename. -/
inductive StageEvent where
  | getStartingSeq
  | circularise
  | rotateToStartingSeq
  | saveSeqsToFasta (filename : String)
  | getPerBaseScores
  | getPairwiseAlignments
  | getConsensusSeq
deriving DecidableEq

/-- The stage functions `main` calls that live in other modules (not among
the sources). Each takes the current random-generator state first and returns
the updated state; `σ`, `π` and `α` are the types of the starting sequence,
the per-base scores and the pairwise alignments. -/
structure Stages (σ π α : Type) where
  sanityOk : ContigSet → Bool
  getStartingSeq : Nat → ContigSet → Nat → (σ × ContigSet) × Nat
  circularise : Nat → ContigSet → SeqFile → Nat → ContigSet × Nat
  rotateToStartingSeq : Nat → ContigSet → σ → ContigSet × Nat
  getPerBaseScores : Nat → ContigSet → SeqFile → Bool → π × Nat
  getPairwiseAlignments : Nat → ContigSet → α × Nat
  getConsensusSeq : Nat → ContigSet → π → α → ContigSet × Nat

/-- How a run of `main` ends early: a `sys.exit` from validation, the
`assert` in `load_contig_sequences` failing (or the label lookup overflowing
`string.ascii_uppercase`), or `initial_sanity_check` aborting. -/
inductive Abort where
  | exited (e : ExitError)
  | assertionFailed
  | sanityCheckFailed
deriving DecidableEq

/-- The observable outcome of a run of `main`: the pipeline stages that ran,
in order; the contig sets handed to `save_seqs_to_fasta` with their
destination filenames, in order; and how the run aborted, if it did. -/
structure RunOutcome where
  trace : List StageEvent
  writes : List (String × ContigSet)
  abort : Option Abort
deriving DecidableEq

/-- Model of `main(args)`: seed the generator with 0 (discarding the incoming
state `rng0`), validate, load, sanity-check, pick the starting sequence, then
— only when the contigs are circular — circularise and rotate, save the
normalized contigs, score, align pairwise, build the consensus and save it. -/
def mainModel {σ π α : Type} (st : Stages σ π α) (rng0 : Nat) (args : MainArgs) : RunOutcome :=
  let rng := randomSeed 0
  match checkInputsAndRequirements args with
  | Except.error e => { trace := [], writes := [], abort := some (Abort.exited e) }
  | Except.ok _ =>
    match loadContigSequences args.contigs with
    | none => { trace := [], writes := [], abort := some Abort.assertionFailed }
    | some seqs =>
      if st.sanityOk seqs = false then
        { trace := [], writes := [], abort := some Abort.sanityCheckFailed }
      else
        let r1 := st.getStartingSeq rng seqs args.threads
        let startingSeq := r1.1.1
        let circStep :=
          if circularFlag args.notCircular then
            let r2 := st.circularise r1.2 r1.1.2 args.reads args.threads
            let r3 := st.rotateToStartingSeq r2.2 r2.1 startingSeq
            (r3.1, r3.2, [StageEvent.circularise, StageEvent.rotateToStartingSeq])
          else
            (r1.1.2, r1.2, [])
        let seqs2 := circStep.1
        let r4 := st.getPerBaseScores circStep.2.1 seqs2 args.reads (circularFlag args.notCircular)
        let r5 := st.getPairwiseAlignments r4.2 seqs2
        let r6 := st.getConsensusSeq r5.2 seqs2 r4.1 r5.1
        { trace := [StageEvent.getStartingSeq] ++ circStep.2.2 ++
            [StageEvent.saveSeqsToFasta (args.outDir ++ "/01_all_seqs.fasta"),
             StageEvent.getPerBaseScores, StageEvent.getPairwiseAlignments,
             StageEvent.getConsensusSeq,
             StageEvent.saveSeqsToFasta (args.outDir ++ "/02_consensus.fasta")],
          writes := [(args.outDir ++ "/01_all_seqs.fasta", seqs2),
                     (args.outDir ++ "/02_consensus.fasta", r6.1)],
          abort := none }

/-- A contig file that passes the per-file checks of `check_input_contigs`:
FASTA format and exactly one record. -/
def validFile (f : SeqFile) : Prop :=
  f.ftype = FileType.FASTA ∧ f.records.length = 1

instance : DecidablePred validFile := fun f => by
  unfold validFile
  infer_instance

/-- All record names occurring in a list of contig files, in order. -/
def allNames (fs : List SeqFile) : List String :=
  fs.flatMap (fun f => f.records.map Prod.fst)

/-- Replace every record name of a file by the empty string, keeping the
sequences; used to state that loading ignores record names. -/
def stripRecordNames (f : SeqFile) : SeqFile :=
  { f with records := f.records.map (fun p => ("", p.2)) }

/-- Trivial instantiation of the external stages, used to evaluate the model
on concrete inputs: every stage leaves the contig set and the generator
state unchanged. -/
def idStages : Stages Unit Unit Unit where
  sanityOk := fun _ => true
  getStartingSeq := fun rng s _ => (((), s), rng)
  circularise := fun rng s _ _ => (s, rng)
  rotateToStartingSeq := fun rng s _ => (s, rng)
  getPerBaseScores := fun rng _ _ _ => ((), rng)
  getPairwiseAlignments := fun rng _ => ((), rng)
  getConsensusSeq := fun rng s _ _ => (s, rng)

/-- A valid single-record FASTA contig file. -/
def fileA : SeqFile :=
  { filename := "a.fasta", ftype := FileType.FASTA, records := [("ctg_a", "ACGT")] }

/-- A second valid single-record FASTA contig file with a distinct name. -/
def fileB : SeqFile :=
  { filename := "b.fasta", ftype := FileType.FASTA, records := [("ctg_b", "AGGT")] }

/-- A FASTQ read file. -/
def readsFq : SeqFile :=
  { filename := "reads.fastq", ftype := FileType.FASTQ, records := [] }

/-- A read file that is not FASTQ. -/
def badReads : SeqFile :=
  { filename := "reads.txt", ftype := FileType.other, records := [] }

/-- A contig file that is not in FASTA format. -/
def badContig : SeqFile :=
  { filename := "bad.txt", ftype := FileType.other, records := [] }

/-- A FASTA contig file holding two records, the first named "X". -/
def fileMulti : SeqFile :=
  { filename := "f1.fasta", ftype := FileType.FASTA, records := [("X", "ACGT"), ("Y", "CCCC")] }

/-- A valid FASTA contig file whose single record is named "X". -/
def fileX2 : SeqFile :=
  { filename := "f2.fasta", ftype := FileType.FASTA, records := [("X", "GGGG")] }

/-- A valid FASTA contig file whose single record is also named "X". -/
def fileX1 : SeqFile :=
  { filename := "x1.fasta", ftype := FileType.FASTA, records := [("X", "TTTT")] }

/-- A fully valid invocation with circular contigs (the default). -/
def argsCircular : MainArgs :=
  { contigs := [fileA, fileB], reads := readsFq, outDir := "out",
    outDirStatus := PathStatus.absent, threads := 4, notCircular := false }

/-- A fully valid invocation with `--not_circular`. -/
def argsNotCircular : MainArgs :=
  { argsCircular with notCircular := true }

/-- An invocation with a single contig file and a non-FASTQ read file. -/
def argsOneContigBadReads : MainArgs :=
  { contigs := [fileA], reads := badReads, outDir := "out",
    outDirStatus := PathStatus.absent, threads := 4, notCircular := false }

/-- An invocation with a single contig file and a valid read file. -/
def argsTooFew : MainArgs :=
  { contigs := [fileA], reads := readsFq, outDir := "out",
    outDirStatus := PathStatus.absent, threads := 4, notCircular := false }

/-- An invocation whose two contig files both contain a record named "X",
the first of them holding two records. -/
def argsShareName : MainArgs :=
  { contigs := [fileMulti, fileX2], reads := readsFq, outDir := "out",
    outDirStatus := PathStatus.absent, threads := 4, notCircular := false }

/-- An invocation whose two valid contig files carry the same record name. -/
def argsDup : MainArgs :=
  { contigs := [fileX1, fileX2], reads := readsFq, outDir := "out",
    outDirStatus := PathStatus.absent, threads := 4, notCircular := false }

/-- An invocation whose second contig file is not in FASTA format. -/
def argsBadContig : MainArgs :=
  { contigs := [fileA, badContig], reads := readsFq, outDir := "out",
    outDirStatus := PathStatus.absent, threads := 4, notCircular := false }

lemma checkContigsLoop_notFasta_head {f : SeqFile} (hty : f.ftype ≠ FileType.FASTA)
    (seen : List String) (rest : List SeqFile) :
    checkContigsLoop seen (f :: rest) = Except.error (ExitError.contigNotFasta f.filename) := by
  simp [checkContigsLoop, get_sequence_file_type, hty]

lemma checkContigsLoop_noSeqs_head {f : SeqFile} (hty : f.ftype = FileType.FASTA)
    (hrec : f.records = []) (seen : List String) (rest : List SeqFile) :
    checkContigsLoop seen (f :: rest) = Except.error (ExitError.contigNoSeqs f.filename) := by
  simp [checkContigsLoop, get_sequence_file_type, load_fasta, hty, hrec]

lemma checkContigsLoop_multi_head {f : SeqFile} (hty : f.ftype = FileType.FASTA)
    (hrec : 2 ≤ f.records.length) (seen : List String) (rest : List SeqFile) :
    checkContigsLoop seen (f :: rest) = Except.error (ExitError.contigMultipleSeqs f.filename) := by
  rcases hr : f.records with _ | ⟨p1, _ | ⟨p2, t⟩⟩
  · rw [hr] at hrec; simp at hrec
  · rw [hr] at hrec; simp at hrec
  · simp [checkContigsLoop, get_sequence_file_type, load_fasta, hty, hr]

lemma checkContigsLoop_valid_head {f : SeqFile} {nm s : String}
    (hty : f.ftype = FileType.FASTA) (hrec : f.records = [(nm, s)])
    (seen : List String) (rest : List SeqFile) :
    checkContigsLoop seen (f :: rest) =
      if nm ∈ seen then Except.error (ExitError.duplicateContigName nm)
      else checkContigsLoop (nm :: seen) rest := by
  simp [checkContigsLoop, get_sequence_file_type, load_fasta, hty, hrec]

lemma allNames_cons_single {g : SeqFile} {nm s : String} (hr : g.records = [(nm, s)])
    (rest : List SeqFile) : allNames (g :: rest) = nm :: allNames rest := by
  simp [allNames, hr]

lemma checkContigsLoop_ok_valid {fs : List SeqFile} :
    ∀ {seen : List String}, checkContigsLoop seen fs = Except.ok () →
      ∀ f ∈ fs, validFile f := by
  induction fs with
  | nil => intro seen _ f hf; cases hf
  | cons g rest ih =>
    intro seen h f hf
    by_cases hty : g.ftype = FileType.FASTA
    · rcases hr : g.records with _ | ⟨⟨nm, s⟩, tail⟩
      · rw [checkContigsLoop_noSeqs_head hty hr] at h; simp at h
      · rcases tail with _ | ⟨p2, t2⟩
        · rw [checkContigsLoop_valid_head hty hr] at h
          by_cases hin : nm ∈ seen
          · rw [if_pos hin] at h; simp at h
          · rw [if_neg hin] at h
            rcases List.mem_cons.mp hf with rfl | hf'
            · exact ⟨hty, by simp [hr]⟩
            · exact ih h f hf'
        · rw [checkContigsLoop_multi_head hty (by rw [hr]; simp) seen rest] at h
          simp at h
    · rw [checkContigsLoop_notFasta_head hty] at h; simp at h

lemma checkContigsLoop_ok_nodup {fs : List SeqFile} :
    ∀ {seen : List String}, checkContigsLoop seen fs = Except.ok () →
      (allNames fs).Nodup ∧ ∀ x ∈ allNames fs, x ∉ seen := by
  induction fs with
  | nil => intro seen _; simp [allNames]
  | cons g rest ih =>
    intro seen h
    obtain ⟨hty, hlen⟩ := checkContigsLoop_ok_valid h g (by simp)
    obtain ⟨⟨nm, s⟩, hr⟩ := List.length_eq_one.mp hlen
    rw [checkContigsLoop_valid_head hty hr] at h
    by_cases hin : nm ∈ seen
    · rw [if_pos hin] at h; simp at h
    · rw [if_neg hin] at h
      obtain ⟨hnd, hfresh⟩ := ih h
      rw [allNames_cons_single hr]
      constructor
      · refine List.nodup_cons.mpr ⟨?_, hnd⟩
        intro hmem
        exact (hfresh nm hmem) (by simp)
      · intro x hx
        rcases List.mem_cons.mp hx with rfl | hx'
        · exact hin
        · intro hs
          exact (hfresh x hx') (List.mem_cons_of_mem _ hs)

lemma checkContigsLoop_ne_dup {fs : List SeqFile} :
    ∀ {seen : List String}, (allNames fs).Nodup → (∀ x ∈ allNames fs, x ∉ seen) →
      ∀ nm, checkContigsLoop seen fs ≠ Except.error (ExitError.duplicateContigName nm) := by
  induction fs with
  | nil => intro seen _ _ nm h; simp [checkContigsLoop] at h
  | cons g rest ih =>
    intro seen hnd hfresh nm h
    by_cases hty : g.ftype = FileType.FASTA
    · rcases hr : g.records with _ | ⟨⟨n0, s0⟩, tail⟩
      · rw [checkContigsLoop_noSeqs_head hty hr] at h; simp at h
      · rcases tail with _ | ⟨p2, t2⟩
        · rw [checkContigsLoop_valid_head hty hr] at h
          have hn0 : n0 ∈ allNames (g :: rest) := by
            rw [allNames_cons_single hr]; simp
          by_cases hin : n0 ∈ seen
          · exact (hfresh n0 hn0) hin
          · rw [if_neg hin] at h
            rw [allNames_cons_single hr] at hnd hfresh
            refine ih hnd.of_cons ?_ nm h
            intro x hx hmem
            rcases List.mem_cons.mp hmem with rfl | hmem'
            · exact (List.nodup_cons.mp hnd).1 hx
            · exact (hfresh x (List.mem_cons_of_mem _ hx)) hmem'
        · rw [checkContigsLoop_multi_head hty (by rw [hr]; simp) seen rest] at h
          simp at h
    · rw [checkContigsLoop_notFasta_head hty] at h; simp at h

lemma checkContigsLoop_valid_cases {fs : List SeqFile} :
    ∀ {seen : List String}, (∀ f ∈ fs, validFile f) →
      checkContigsLoop seen fs = Except.ok () ∨
      ∃ nm, checkContigsLoop seen fs = Except.error (ExitError.duplicateContigName nm) ∧
        nm ∈ allNames fs ∧ (nm ∈ seen ∨ 2 ≤ (allNames fs).count nm) := by
  induction fs with
  | nil => intro seen _; left; rfl
  | cons g rest ih =>
    intro seen hv
    obtain ⟨hty, hlen⟩ := hv g (by simp)
    obtain ⟨⟨nm0, s0⟩, hr⟩ := List.length_eq_one.mp hlen
    rw [checkContigsLoop_valid_head hty hr, allNames_cons_single hr]
    by_cases hin : nm0 ∈ seen
    · right
      exact ⟨nm0, by rw [if_pos hin], by simp, Or.inl hin⟩
    · rw [if_neg hin]
      rcases ih (fun f hf => hv f (List.mem_cons_of_mem _ hf)) with hok | ⟨nm, herr, hmem, hcase⟩
      · left; exact hok
      · right
        refine ⟨nm, herr, List.mem_cons_of_mem _ hmem, ?_⟩
        rcases hcase with hseen | hcount
        · rcases List.mem_cons.mp hseen with rfl | hseen'
          · right
            have h1 : 0 < (allNames rest).count nm := List.count_pos_iff.mpr hmem
            rw [List.count_cons_self]
            omega
          · left; exact hseen'
        · right
          rw [List.count_cons]
          split <;> omega

lemma checkContigsLoop_append {good : List SeqFile} :
    ∀ {seen : List String} (l : List SeqFile), (∀ f ∈ good, validFile f) →
      (allNames good).Nodup → (∀ x ∈ allNames good, x ∉ seen) →
      ∃ seen', checkContigsLoop seen (good ++ l) = checkContigsLoop seen' l ∧
        ∀ x, x ∈ seen' ↔ x ∈ seen ∨ x ∈ allNames good := by
  induction good with
  | nil =>
    intro seen l _ _ _
    exact ⟨seen, rfl, by simp [allNames]⟩
  | cons g rest ih =>
    intro seen l hv hnd hfresh
    obtain ⟨hty, hlen⟩ := hv g (by simp)
    obtain ⟨⟨nm0, s0⟩, hr⟩ := List.length_eq_one.mp hlen
    rw [allNames_cons_single hr] at hnd hfresh
    have hin : nm0 ∉ seen := hfresh nm0 (by simp)
    rw [List.cons_append, checkContigsLoop_valid_head hty hr, if_neg hin]
    obtain ⟨seen', heq, hiff⟩ := @ih (nm0 :: seen) l
        (fun f hf => hv f (List.mem_cons_of_mem _ hf))
        hnd.of_cons
        (by
          intro x hx hmem
          rcases List.mem_cons.mp hmem with rfl | hmem'
          · exact (List.nodup_cons.mp hnd).1 hx
          · exact (hfresh x (List.mem_cons_of_mem _ hx)) hmem')
    refine ⟨seen', heq, ?_⟩
    intro x
    rw [hiff x, allNames_cons_single hr]
    simp [List.mem_cons]
    tauto

lemma checkInputReads_eq_ok {f : SeqFile} {u : Unit} (h : checkInputReads f = Except.ok u) :
    f.ftype = FileType.FASTQ := by
  by_contra hne
  simp [checkInputReads, get_sequence_file_type, hne] at h

lemma checkInputContigs_ok {fs : List SeqFile} (h : checkInputContigs fs = Except.ok ()) :
    2 ≤ fs.length ∧ fs.length ≤ MAX_INPUT_CONTIGS ∧
      checkContigsLoop [] fs = Except.ok () := by
  unfold checkInputContigs at h
  by_cases h1 : fs.length < 2
  · rw [if_pos h1] at h; simp at h
  · rw [if_neg h1] at h
    by_cases h2 : fs.length > MAX_INPUT_CONTIGS
    · rw [if_pos h2] at h; simp at h
    · rw [if_neg h2] at h
      exact ⟨by omega, by omega, h⟩

lemma checkInputContigs_run {fs : List SeqFile} (h1 : 2 ≤ fs.length)
    (h2 : fs.length ≤ MAX_INPUT_CONTIGS) :
    checkInputContigs fs = checkContigsLoop [] fs := by
  unfold checkInputContigs
  rw [if_neg (by omega), if_neg (by omega)]

lemma checkIAR_reads_bad {args : MainArgs} (h : args.reads.ftype ≠ FileType.FASTQ) :
    checkInputsAndRequirements args =
      Except.error (ExitError.readsNotFastq args.reads.filename) := by
  simp [checkInputsAndRequirements, checkInputReads, get_sequence_file_type, h]

lemma checkIAR_contigs_err {args : MainArgs} (hr : args.reads.ftype = FileType.FASTQ)
    {e : ExitError} (hc : checkInputContigs args.contigs = Except.error e) :
    checkInputsAndRequirements args = Except.error e := by
  simp [checkInputsAndRequirements, checkInputReads, get_sequence_file_type, hr, hc]

lemma checkIAR_ok_parts {args : MainArgs} {v : Option DirAction}
    (h : checkInputsAndRequirements args = Except.ok v) :
    args.reads.ftype = FileType.FASTQ ∧ checkInputContigs args.contigs = Except.ok () ∧
      checkOutputDirectory args.outDir args.outDirStatus = Except.ok v := by
  unfold checkInputsAndRequirements at h
  cases hcr : checkInputReads args.reads with
  | error e => rw [hcr] at h; simp at h
  | ok u =>
    rw [hcr] at h
    cases hcc : checkInputContigs args.contigs with
    | error e => rw [hcc] at h; simp at h
    | ok u2 =>
      rw [hcc] at h
      cases u2
      exact ⟨checkInputReads_eq_ok hcr, rfl, h⟩

lemma checkIAR_dup {args : MainArgs} {nm : String}
    (h : checkInputsAndRequirements args =
      Except.error (ExitError.duplicateContigName nm)) :
    checkContigsLoop [] args.contigs = Except.error (ExitError.duplicateContigName nm) := by
  unfold checkInputsAndRequirements at h
  cases hcr : checkInputReads args.reads with
  | error e =>
    rw [hcr] at h
    simp only [Except.error.injEq] at h
    subst h
    simp [checkInputReads, get_sequence_file_type] at hcr
    by_cases hty : args.reads.ftype = FileType.FASTQ
    · simp [hty] at hcr
    · simp [hty] at hcr
  | ok u =>
    rw [hcr] at h
    cases hcc : checkInputContigs args.contigs with
    | error e =>
      rw [hcc] at h
      simp only [Except.error.injEq] at h
      subst h
      unfold checkInputContigs at hcc
      by_cases h1 : args.contigs.length < 2
      · rw [if_pos h1] at hcc; simp at hcc
      · rw [if_neg h1] at hcc
        by_cases h2 : args.contigs.length > MAX_INPUT_CONTIGS
        · rw [if_pos h2] at hcc; simp at hcc
        · rw [if_neg h2] at hcc; exact hcc
    | ok u2 =>
      rw [hcc] at h
      unfold checkOutputDirectory at h
      cases hd : args.outDirStatus <;> rw [hd] at h <;> simp at h

lemma mainModel_checkFail {σ π α : Type} (st : Stages σ π α) (r : Nat) {args : MainArgs}
    {e : ExitError} (h : checkInputsAndRequirements args = Except.error e) :
    mainModel st r args = { trace := [], writes := [], abort := some (Abort.exited e) } := by
  unfold mainModel
  rw [h]

lemma mainModel_abort_exited {σ π α : Type} {st : Stages σ π α} {r : Nat} {args : MainArgs}
    {e : ExitError} (h : (mainModel st r args).abort = some (Abort.exited e)) :
    checkInputsAndRequirements args = Except.error e := by
  unfold mainModel at h
  cases hc : checkInputsAndRequirements args with
  | error e' =>
    simp only [hc] at h
    simp at h
    rw [h]
  | ok v =>
    simp only [hc] at h
    cases hl : loadContigSequences args.contigs with
    | none => simp only [hl] at h; simp at h
    | some seqs =>
      simp only [hl] at h
      by_cases hs : st.sanityOk seqs = false
      · simp [hs] at h
      · simp [hs] at h

lemma mainModel_abort_none {σ π α : Type} {st : Stages σ π α} {r : Nat} {args : MainArgs}
    (h : (mainModel st r args).abort = none) :
    ∃ v seqs, checkInputsAndRequirements args = Except.ok v ∧
      loadContigSequences args.contigs = some seqs ∧ st.sanityOk seqs = true := by
  unfold mainModel at h
  cases hc : checkInputsAndRequirements args with
  | error e => simp only [hc] at h; simp at h
  | ok v =>
    simp only [hc] at h
    cases hl : loadContigSequences args.contigs with
    | none => simp only [hl] at h; simp at h
    | some seqs =>
      simp only [hl] at h
      by_cases hs : st.sanityOk seqs = false
      · simp [hs] at h
      · exact ⟨v, seqs, rfl, rfl, by revert hs; cases st.sanityOk seqs <;> simp⟩

lemma mainModel_success {σ π α : Type} (st : Stages σ π α) (r : Nat) {args : MainArgs}
    {v : Option DirAction} {seqs : ContigSet}
    (hc : checkInputsAndRequirements args = Except.ok v)
    (hl : loadContigSequences args.contigs = some seqs)
    (hs : st.sanityOk seqs = true) :
    mainModel st r args =
      (let rng := randomSeed 0
       let r1 := st.getStartingSeq rng seqs args.threads
       let circStep :=
         if circularFlag args.notCircular then
           let r2 := st.circularise r1.2 r1.1.2 args.reads args.threads
           let r3 := st.rotateToStartingSeq r2.2 r2.1 r1.1.1
           (r3.1, r3.2, [StageEvent.circularise, StageEvent.rotateToStartingSeq])
         else
           (r1.1.2, r1.2, ([] : List StageEvent))
       let r4 := st.getPerBaseScores circStep.2.1 circStep.1 args.reads
          (circularFlag args.notCircular)
       let r5 := st.getPairwiseAlignments r4.2 circStep.1
       let r6 := st.getConsensusSeq r5.2 circStep.1 r4.1 r5.1
       { trace := [StageEvent.getStartingSeq] ++ circStep.2.2 ++
            [StageEvent.saveSeqsToFasta (args.outDir ++ "/01_all_seqs.fasta"),
             StageEvent.getPerBaseScores, StageEvent.getPairwiseAlignments,
             StageEvent.getConsensusSeq,
             StageEvent.saveSeqsToFasta (args.outDir ++ "/02_consensus.fasta")],
         writes := [(args.outDir ++ "/01_all_seqs.fasta", circStep.1),
                    (args.outDir ++ "/02_consensus.fasta", r6.1)],
         abort := none }) := by
  unfold mainModel
  simp only [hc, hl]
  rw [if_neg (by rw [hs]; simp)]

lemma asciiUppercase_length : asciiUppercase.length = 26 := rfl

lemma loadContigLoop_spec {fs : List SeqFile} :
    ∀ i : Nat, (∀ f ∈ fs, (load_fasta f).length = 1) → i + fs.length ≤ 26 →
      ∃ m, loadContigLoop i fs = some m ∧ m.length = fs.length ∧
        ∀ j, j < fs.length →
          ∃ letter nm s fj, asciiUppercase[i + j]? = some letter ∧
            fs.get? j = some fj ∧ fj.records = [(nm, s)] ∧ m.get? j = some (letter, s) := by
  induction fs with
  | nil =>
    intro i _ _
    exact ⟨[], rfl, rfl, fun j hj => absurd hj (by simp)⟩
  | cons f rest ih =>
    intro i hv hle
    have hi : i < 26 := by simp at hle; omega
    have hlet : ∃ letter, asciiUppercase[i]? = some letter := by
      rw [List.getElem?_eq_getElem (by rw [asciiUppercase_length]; exact hi)]
      exact ⟨_, rfl⟩
    obtain ⟨letter, hlet⟩ := hlet
    have hf1 := hv f (by simp)
    rw [load_fasta] at hf1
    obtain ⟨⟨nm, s⟩, hr⟩ := List.length_eq_one.mp hf1
    obtain ⟨m, hm, hlen, hidx⟩ := ih (i + 1) (fun g hg => hv g (List.mem_cons_of_mem _ hg))
      (by simp at hle ⊢; omega)
    refine ⟨(letter, s) :: m, ?_, by simp [hlen], ?_⟩
    · simp [loadContigLoop, hlet, load_fasta, hr, hm]
    · intro j hj
      cases j with
      | zero =>
        exact ⟨letter, nm, s, f, by simpa using hlet, rfl, hr, rfl⟩
      | succ j' =>
        obtain ⟨l2, nm2, s2, fj, ha, hb, hc2, hd⟩ := hidx j' (by simp at hj; omega)
        refine ⟨l2, nm2, s2, fj, ?_, by simpa using hb, hc2, by simpa using hd⟩
        have harith : i + (j' + 1) = (i + 1) + j' := by omega
        rw [harith]
        exact ha

lemma loadContigLoop_stripNames (fs : List SeqFile) :
    ∀ i : Nat, loadContigLoop i (fs.map stripRecordNames) = loadContigLoop i fs := by
  induction fs with
  | nil => intro i; rfl
  | cons f rest ih =>
    intro i
    rcases hr : f.records with _ | ⟨⟨nm, s⟩, tail⟩
    · simp [loadContigLoop, load_fasta, stripRecordNames, hr]
    · rcases tail with _ | ⟨p2, t2⟩
      · simp [loadContigLoop, load_fasta, stripRecordNames, hr, ih]
      · simp [loadContigLoop, load_fasta, stripRecordNames, hr]

lemma loadContigLoop_keys {fs : List SeqFile} :
    ∀ {i : Nat} {m : ContigSet}, loadContigLoop i fs = some m →
      m.map Prod.fst = (asciiUppercase.drop i).take fs.length := by
  induction fs with
  | nil =>
    intro i m h
    simp [loadContigLoop] at h
    subst h
    simp
  | cons f rest ih =>
    intro i m h
    unfold loadContigLoop at h
    cases hlet : asciiUppercase[i]? with
    | none => rw [hlet] at h; simp at h
    | some letter =>
      rw [hlet] at h
      rcases hr : load_fasta f with _ | ⟨⟨nm, s⟩, tail⟩
      · rw [hr] at h; simp at h
      · rcases tail with _ | ⟨p2, t2⟩
        · rw [hr] at h
          cases hm : loadContigLoop (i + 1) rest with
          | none => rw [hm] at h; simp at h
          | some m' =>
            rw [hm] at h
            simp at h
            subst h
            have hlt : i < asciiUppercase.length := by
              by_contra hge
              rw [List.getElem?_eq_none (by omega)] at hlet
              cases hlet
            have hdrop : asciiUppercase.drop i =
                letter :: asciiUppercase.drop (i + 1) := by
              rw [List.drop_eq_getElem_cons hlt]
              congr 1
              have hg := List.getElem?_eq_getElem hlt
              rw [hlet] at hg
              exact (Option.some.inj hg).symm
            simp [hdrop, ih hm]
        · rw [hr] at h; simp at h

lemma splitLines_append_newline {xs : List Char} (hx : '\n' ∉ xs) (ys : List Char) :
    splitLines (xs ++ '\n' :: ys) = xs :: splitLines ys := by
  induction xs with
  | nil => simp [splitLines]
  | cons c cs ih =>
    have hc : c ≠ '\n' := by
      intro h
      exact hx (h ▸ List.mem_cons_self c cs)
    have hcs : '\n' ∉ cs := fun h => hx (List.mem_cons_of_mem _ h)
    rw [List.cons_append]
    conv_lhs => rw [splitLines]
    rw [if_neg hc, ih hcs]

lemma dup_pair_not_nodup {fs : List SeqFile}
    (h : ∃ i j, ∃ hi : i < fs.length, ∃ hj : j < fs.length, i ≠ j ∧
      ∃ nm, nm ∈ (fs.get ⟨i, hi⟩).records.map Prod.fst ∧
        nm ∈ (fs.get ⟨j, hj⟩).records.map Prod.fst) :
    ¬ (allNames fs).Nodup := by
  intro hnd
  obtain ⟨i, j, hi, hj, hne, nm, hmi, hmj⟩ := h
  rw [allNames, List.nodup_flatMap] at hnd
  have hpair := List.pairwise_iff_get.mp hnd.2
  rcases lt_or_gt_of_ne hne with hlt | hgt
  · exact (hpair ⟨i, hi⟩ ⟨j, hj⟩ hlt) hmi hmj
  · exact (hpair ⟨j, hj⟩ ⟨i, hi⟩ hgt) hmj hmi

/-- C8: `main` calls `random.seed(0)` once, before any pipeline stage, so the
observable behaviour of a run does not depend on the incoming state of the
random generator: two runs on identical inputs yield identical outcomes. -/
theorem c8_seed_determinism {σ π α : Type} (st : Stages σ π α) (r1 r2 : Nat)
    (args : MainArgs) : mainModel st r1 args = mainModel st r2 args := rfl

/-- C4: `check_output_directory` exits fatally exactly when the output path
exists as a regular file; an absent path leads to a parent-creating mkdir;
an already-existing directory passes without an abort or a mkdir. -/
theorem c4_output_directory_check (d : String) :
    checkOutputDirectory d PathStatus.isFile =
        Except.error (ExitError.outDirIsFile d) ∧
    checkOutputDirectory d PathStatus.isDir = Except.ok none ∧
    checkOutputDirectory d PathStatus.absent =
        Except.ok (some DirAction.mkdirParents) ∧
    ∀ s : PathStatus,
      (∃ e, checkOutputDirectory d s = Except.error e) ↔ s = PathStatus.isFile := by
  refine ⟨rfl, rfl, rfl, ?_⟩
  intro s
  cases s <;> simp [checkOutputDirectory]

/-- C9: once `check_input_contigs` has succeeded on the same files, every file
holds exactly one record, so the `assert len(seqs) == 1` inside
`load_contig_sequences` never fails and loading returns a mapping. -/
theorem c9_assert_unreachable (files : List SeqFile)
    (h : checkInputContigs files = Except.ok ()) :
    (∀ f ∈ files, (load_fasta f).length = 1) ∧ (loadContigSequences files).isSome := by
  obtain ⟨h2, hmax, hloop⟩ := checkInputContigs_ok h
  have hval : ∀ f ∈ files, (load_fasta f).length = 1 := fun f hf =>
    (checkContigsLoop_ok_valid hloop f hf).2
  refine ⟨hval, ?_⟩
  obtain ⟨m, hm, _, _⟩ := loadContigLoop_spec 0 hval
    (by unfold MAX_INPUT_CONTIGS at hmax; omega)
  rw [loadContigSequences, hm]
  rfl

/-- C9 witness: the assertion facts evaluated on a concrete validated pair of
contig files. -/
theorem c9_witness :
    (∀ f ∈ [fileA, fileB], (load_fasta f).length = 1) ∧
      (loadContigSequences [fileA, fileB]).isSome :=
  c9_assert_unreachable [fileA, fileB] rfl

/-- C6: on a validated list of n contig files the loaded mapping has exactly
n entries, in input order, and the i-th entry is keyed by the i-th letter of
`string.ascii_uppercase` and carries the i-th file's sequence. -/
theorem c6_label_assignment (files : List SeqFile)
    (h : checkInputContigs files = Except.ok ()) :
    ∃ m, loadContigSequences files = some m ∧ m.length = files.length ∧
      ∀ j, j < files.length →
        ∃ letter nm s fj, asciiUppercase[j]? = some letter ∧
          files.get? j = some fj ∧ fj.records = [(nm, s)] ∧
          m.get? j = some (letter, s) := by
  obtain ⟨h2, hmax, hloop⟩ := checkInputContigs_ok h
  have hval : ∀ f ∈ files, (load_fasta f).length = 1 := fun f hf =>
    (checkContigsLoop_ok_valid hloop f hf).2
  obtain ⟨m, hm, hlen, hidx⟩ := loadContigLoop_spec 0 hval
    (by unfold MAX_INPUT_CONTIGS at hmax; omega)
  refine ⟨m, hm, hlen, ?_⟩
  intro j hj
  simpa using hidx j hj

/-- C6 witness: the label assignment evaluated on a concrete validated pair
of contig files. -/
theorem c6_witness :
    ∃ m, loadContigSequences [fileA, fileB] = some m ∧
      m.length = ([fileA, fileB] : List SeqFile).length ∧
      ∀ j, j < ([fileA, fileB] : List SeqFile).length →
        ∃ letter nm s fj, asciiUppercase[j]? = some letter ∧
          ([fileA, fileB] : List SeqFile).get? j = some fj ∧
          fj.records = [(nm, s)] ∧ m.get? j = some (letter, s) :=
  c6_label_assignment [fileA, fileB] rfl

/-- C7: `save_seqs_to_fasta` produces, for each entry in mapping order,
exactly a header line `>name` followed by one unwrapped sequence line, and
nothing else (the final empty segment is the effect of the last newline). -/
theorem c7_fasta_line_structure (seqs : List (String × String))
    (h : ∀ p ∈ seqs, '\n' ∉ p.1.data ∧ '\n' ∉ p.2.data) :
    splitLines (writtenChars (saveSeqsToFasta seqs)) =
      seqs.flatMap (fun p => ['>' :: p.1.data, p.2.data]) ++ [[]] := by
  induction seqs with
  | nil => rfl
  | cons p rest ih =>
    obtain ⟨nm, sq⟩ := p
    obtain ⟨h1, h2⟩ := h (nm, sq) (by simp)
    have hrest : ∀ q ∈ rest, '\n' ∉ q.1.data ∧ '\n' ∉ q.2.data :=
      fun q hq => h q (List.mem_cons_of_mem _ hq)
    have hchars : writtenChars (saveSeqsToFasta ((nm, sq) :: rest)) =
        ('>' :: nm.data) ++ '\n' ::
          (sq.data ++ '\n' :: writtenChars (saveSeqsToFasta rest)) := by
      show (">" ++ nm ++ "\n").data ++
          ((sq ++ "\n").data ++ writtenChars (saveSeqsToFasta rest)) = _
      rw [String.data_append, String.data_append, String.data_append]
      simp
    rw [hchars, splitLines_append_newline (by simp [h1]),
      splitLines_append_newline h2, ih hrest]
    simp

/-- C7 witness: the line structure evaluated on a concrete one-entry mapping. -/
theorem c7_witness :
    splitLines (writtenChars (saveSeqsToFasta [("A", "ACGT")])) =
      ([("A", "ACGT")] : List (String × String)).flatMap
          (fun p => ['>' :: p.1.data, p.2.data]) ++ [[]] :=
  c7_fasta_line_structure [("A", "ACGT")] (by decide)

/-- C10: `load_contig_sequences` discards the input record names — the loaded
mapping is keyed by the positional letters alone and is unchanged if every
record name is erased — and, provided the external stages preserve the
labels (the spec's per-candidate stages do), the contig set written to
`01_all_seqs.fasta` is keyed by the letters, never derived from the input
record names. -/
theorem c10_letter_headers :
    (∀ files : List SeqFile,
        loadContigSequences (files.map stripRecordNames) = loadContigSequences files) ∧
    (∀ (files : List SeqFile) (m : ContigSet), loadContigSequences files = some m →
        m.map Prod.fst = asciiUppercase.take files.length) ∧
    (∀ {σ π α : Type} (st : Stages σ π α) (r : Nat) (args : MainArgs),
        (∀ rg s t, ((st.getStartingSeq rg s t).1.2).map Prod.fst = s.map Prod.fst) →
        (∀ rg s rd t, ((st.circularise rg s rd t).1).map Prod.fst = s.map Prod.fst) →
        (∀ rg s x, ((st.rotateToStartingSeq rg s x).1).map Prod.fst = s.map Prod.fst) →
        (mainModel st r args).abort = none →
        ∃ w, (mainModel st r args).writes.head? =
            some (args.outDir ++ "/01_all_seqs.fasta", w) ∧
          w.map Prod.fst = asciiUppercase.take args.contigs.length) := by
  refine ⟨?_, ?_, ?_⟩
  · intro files
    exact loadContigLoop_stripNames files 0
  · intro files m hm
    simpa using @loadContigLoop_keys files 0 m hm
  · intro σ π α st r args hg hcirc hrot habort
    obtain ⟨v, seqs, hc, hl, hs⟩ := mainModel_abort_none habort
    have hkeys : seqs.map Prod.fst = asciiUppercase.take args.contigs.length := by
      simpa using @loadContigLoop_keys args.contigs 0 seqs hl
    rw [mainModel_success st r hc hl hs]
    refine ⟨_, rfl, ?_⟩
    by_cases hflag : circularFlag args.notCircular = true
    · rw [if_pos hflag]
      simp [hrot, hcirc, hg, hkeys]
    · rw [if_neg hflag]
      simp [hg, hkeys]

/-- C10 witness: the letter-keyed first write evaluated on a concrete run
with label-preserving stages. -/
theorem c10_witness :
    ∃ w, (mainModel idStages 0 argsCircular).writes.head? =
        some (argsCircular.outDir ++ "/01_all_seqs.fasta", w) ∧
      w.map Prod.fst = asciiUppercase.take argsCircular.contigs.length :=
  c10_letter_headers.2.2 idStages 0 argsCircular
    (fun _ _ _ => rfl) (fun _ _ _ _ => rfl) (fun _ _ _ => rfl) (by decide)

/-- C1 counterexample: on a fully valid invocation with `--not_circular`
(the circularity flag false), `get_starting_seq` still runs — against the
claim that none of the three Rotation Normalizer steps does. -/
theorem c1_counterexample :
    argsNotCircular.notCircular = true ∧
      StageEvent.getStartingSeq ∈ (mainModel idStages 0 argsNotCircular).trace := by
  decide

/-- C1 (amended): `get_starting_seq` runs on every completed run regardless of
the circularity flag; when the flag is false only `circularise` and
`rotate_to_starting_seq` are skipped, and the contig set saved to
`01_all_seqs.fasta` and passed to the scorer and pairwise aligner is the one
returned by `get_starting_seq` (not necessarily the loaded set); when the
flag is true all three run before any output is written. -/
theorem c1_rotation_stage_gating {σ π α : Type} (st : Stages σ π α) (r : Nat)
    (args : MainArgs) (seqs : ContigSet)
    (hl : loadContigSequences args.contigs = some seqs)
    (hn : (mainModel st r args).abort = none) :
    StageEvent.getStartingSeq ∈ (mainModel st r args).trace ∧
    (args.notCircular = true →
      (mainModel st r args).trace =
        [StageEvent.getStartingSeq,
         StageEvent.saveSeqsToFasta (args.outDir ++ "/01_all_seqs.fasta"),
         StageEvent.getPerBaseScores, StageEvent.getPairwiseAlignments,
         StageEvent.getConsensusSeq,
         StageEvent.saveSeqsToFasta (args.outDir ++ "/02_consensus.fasta")] ∧
      (mainModel st r args).writes.head? =
        some (args.outDir ++ "/01_all_seqs.fasta",
          (st.getStartingSeq (randomSeed 0) seqs args.threads).1.2)) ∧
    (args.notCircular = false →
      (mainModel st r args).trace =
        [StageEvent.getStartingSeq, StageEvent.circularise,
         StageEvent.rotateToStartingSeq,
         StageEvent.saveSeqsToFasta (args.outDir ++ "/01_all_seqs.fasta"),
         StageEvent.getPerBaseScores, StageEvent.getPairwiseAlignments,
         StageEvent.getConsensusSeq,
         StageEvent.saveSeqsToFasta (args.outDir ++ "/02_consensus.fasta")]) := by
  obtain ⟨v, seqs', hc, hl', hs⟩ := mainModel_abort_none hn
  rw [hl] at hl'
  obtain rfl := Option.some.inj hl'
  rw [mainModel_success st r hc hl hs]
  refine ⟨?_, ?_, ?_⟩
  · by_cases hflag : args.notCircular <;> simp [circularFlag, hflag]
  · intro hflag
    constructor <;> simp [circularFlag, hflag]
  · intro hflag
    simp [circularFlag, hflag]

/-- C1 witness: the amended gating evaluated on a concrete valid
`--not_circular` run with identity stages. -/
theorem c1_witness :
    (mainModel idStages 0 argsNotCircular).trace =
      [StageEvent.getStartingSeq,
       StageEvent.saveSeqsToFasta (argsNotCircular.outDir ++ "/01_all_seqs.fasta"),
       StageEvent.getPerBaseScores, StageEvent.getPairwiseAlignments,
       StageEvent.getConsensusSeq,
       StageEvent.saveSeqsToFasta (argsNotCircular.outDir ++ "/02_consensus.fasta")] ∧
    (mainModel idStages 0 argsNotCircular).writes.head? =
      some (argsNotCircular.outDir ++ "/01_all_seqs.fasta",
        (idStages.getStartingSeq (randomSeed 0) [("A", "ACGT"), ("B", "AGGT")]
          argsNotCircular.threads).1.2) :=
  (c1_rotation_stage_gating idStages 0 argsNotCircular [("A", "ACGT"), ("B", "AGGT")]
    rfl (by decide)).2.1 rfl

/-- C2 counterexample: with only one contig file but a non-FASTQ read file,
the run exits during validation with the read-format message, not the
required "two or more" message — the read check runs first. -/
theorem c2_counterexample :
    argsOneContigBadReads.contigs.length < 2 ∧
    (mainModel idStages 0 argsOneContigBadReads).abort =
      some (Abort.exited (ExitError.readsNotFastq "reads.txt")) ∧
    (ExitError.readsNotFastq "reads.txt").message ≠
      "Error: two or more input contigs are required" := by
  decide

/-- C2 (amended): an invocation with fewer than two or more than
`MAX_INPUT_CONTIGS` contig files always aborts during validation, before any
pipeline stage and before any output is recorded; and provided the read file
has passed its FASTQ check (which runs first), the abort is exactly the
"two or more required" exit in the too-few case and the too-many exit in the
over-ceiling case. -/
theorem c2_contig_count_validation {σ π α : Type} (st : Stages σ π α) (r : Nat)
    (args : MainArgs)
    (h : args.contigs.length < 2 ∨ args.contigs.length > MAX_INPUT_CONTIGS) :
    (mainModel st r args).trace = [] ∧ (mainModel st r args).writes = [] ∧
    ∃ e, (mainModel st r args).abort = some (Abort.exited e) ∧
      (args.reads.ftype = FileType.FASTQ →
        (args.contigs.length < 2 →
          e = ExitError.tooFewContigs ∧
            e.message = "Error: two or more input contigs are required") ∧
        (args.contigs.length > MAX_INPUT_CONTIGS → e = ExitError.tooManyContigs)) := by
  by_cases hr : args.reads.ftype = FileType.FASTQ
  · have hcc : checkInputContigs args.contigs =
        Except.error (if args.contigs.length < 2 then ExitError.tooFewContigs
          else ExitError.tooManyContigs) := by
      unfold checkInputContigs
      rcases h with h1 | h2
      · rw [if_pos h1, if_pos h1]
      · have h1 : ¬ args.contigs.length < 2 := by
          unfold MAX_INPUT_CONTIGS at h2; omega
        rw [if_neg h1, if_pos h2, if_neg h1]
    rw [mainModel_checkFail st r (checkIAR_contigs_err hr hcc)]
    refine ⟨rfl, rfl, _, rfl, ?_⟩
    intro _
    constructor
    · intro h1
      rw [if_pos h1]
      exact ⟨rfl, rfl⟩
    · intro h2
      have h1 : ¬ args.contigs.length < 2 := by
        unfold MAX_INPUT_CONTIGS at h2; omega
      rw [if_neg h1]
  · rw [mainModel_checkFail st r (checkIAR_reads_bad hr)]
    exact ⟨rfl, rfl, _, rfl, fun hcontra => absurd hcontra hr⟩

/-- C2 witness: the amended count validation evaluated on a concrete
one-contig invocation with a valid read file. -/
theorem c2_witness :
    (mainModel idStages 0 argsTooFew).trace = [] ∧
    (mainModel idStages 0 argsTooFew).writes = [] ∧
    ∃ e, (mainModel idStages 0 argsTooFew).abort = some (Abort.exited e) ∧
      (argsTooFew.reads.ftype = FileType.FASTQ →
        (argsTooFew.contigs.length < 2 →
          e = ExitError.tooFewContigs ∧
            e.message = "Error: two or more input contigs are required") ∧
        (argsTooFew.contigs.length > MAX_INPUT_CONTIGS →
          e = ExitError.tooManyContigs)) :=
  c2_contig_count_validation idStages 0 argsTooFew (Or.inl (by decide))

/-- C3 counterexample: two contig files both containing a record named "X",
the first holding two records: the run aborts with the multiple-sequences
message, which does not name the duplicate. -/
theorem c3_counterexample :
    (mainModel idStages 0 argsShareName).abort =
      some (Abort.exited (ExitError.contigMultipleSeqs "f1.fasta")) ∧
    'X' ∉ ((ExitError.contigMultipleSeqs "f1.fasta").message).data := by
  decide

/-- C3 (amended): whenever two distinct contig files share a record name the
run aborts before any pipeline stage with no output recorded; if moreover the
read file is FASTQ, every contig file is a single-record FASTA and the count
is within the ceiling, the abort is the duplicate-name exit naming a name
that occurs at least twice; conversely, when all record names are pairwise
distinct the duplicate-name exit never fires. -/
theorem c3_duplicate_name_abort {σ π α : Type} (st : Stages σ π α) (r : Nat)
    (args : MainArgs) :
    ((∃ i j, ∃ hi : i < args.contigs.length, ∃ hj : j < args.contigs.length,
        i ≠ j ∧ ∃ nm, nm ∈ (args.contigs.get ⟨i, hi⟩).records.map Prod.fst ∧
          nm ∈ (args.contigs.get ⟨j, hj⟩).records.map Prod.fst) →
      (mainModel st r args).trace = [] ∧ (mainModel st r args).writes = [] ∧
        ((mainModel st r args).abort).isSome ∧
        (args.reads.ftype = FileType.FASTQ → (∀ g ∈ args.contigs, validFile g) →
          args.contigs.length ≤ MAX_INPUT_CONTIGS →
          ∃ nm, (mainModel st r args).abort =
              some (Abort.exited (ExitError.duplicateContigName nm)) ∧
            2 ≤ (allNames args.contigs).count nm)) ∧
    ((allNames args.contigs).Nodup →
      ∀ nm, (mainModel st r args).abort ≠
        some (Abort.exited (ExitError.duplicateContigName nm))) := by
  constructor
  · intro hdup
    have hnotok : ∀ v, checkInputsAndRequirements args ≠ Except.ok v := by
      intro v hok
      obtain ⟨_, hcc, _⟩ := checkIAR_ok_parts hok
      obtain ⟨_, _, hloop⟩ := checkInputContigs_ok hcc
      exact dup_pair_not_nodup hdup (checkContigsLoop_ok_nodup hloop).1
    cases hc : checkInputsAndRequirements args with
    | ok v => exact absurd hc (hnotok v)
    | error e =>
      rw [mainModel_checkFail st r hc]
      refine ⟨rfl, rfl, rfl, ?_⟩
      intro hr hv hmax
      have h2 : 2 ≤ args.contigs.length := by
        obtain ⟨i, j, hi, hj, hne, _⟩ := hdup
        omega
      have hrun := checkInputContigs_run h2 hmax
      rcases @checkContigsLoop_valid_cases args.contigs [] hv with hok | ⟨nm, herr, hmem, hcase⟩
      · exact absurd (checkContigsLoop_ok_nodup hok).1 (dup_pair_not_nodup hdup)
      · have hcc : checkInputContigs args.contigs =
            Except.error (ExitError.duplicateContigName nm) := by
          rw [hrun]; exact herr
        have hce := checkIAR_contigs_err hr hcc
        rw [hc] at hce
        injection hce with he
        subst he
        refine ⟨nm, rfl, ?_⟩
        rcases hcase with habs | hcount
        · simp at habs
        · exact hcount
  · intro hnd nm habort
    have hce := mainModel_abort_exited habort
    have hloopdup := checkIAR_dup hce
    exact checkContigsLoop_ne_dup hnd (by simp) nm hloopdup

/-- C3 witness: the amended duplicate-name abort evaluated on two concrete
valid contig files sharing the record name "X". -/
theorem c3_witness :
    ∃ nm, (mainModel idStages 0 argsDup).abort =
        some (Abort.exited (ExitError.duplicateContigName nm)) ∧
      2 ≤ (allNames argsDup.contigs).count nm :=
  ((c3_duplicate_name_abort idStages 0 argsDup).1
    ⟨0, 1, by decide, by decide, by decide, "X", by decide, by decide⟩).2.2.2
    rfl (by decide) (by decide)

/-- C5: a contig file that is not FASTA, holds no record or holds several
records makes validation abort before any pipeline stage with no output; when
such a file is the first failure point (reads valid, count in range, earlier
files valid with distinct names) the exit message identifies exactly that
file and its defect; and a FASTA file with exactly one record always passes
the per-file checks, reaching only the duplicate-name test. -/
theorem c5_per_file_checks :
    (∀ {σ π α : Type} (st : Stages σ π α) (r : Nat) (args : MainArgs),
      (∃ f ∈ args.contigs, ¬ validFile f) →
      (mainModel st r args).trace = [] ∧ (mainModel st r args).writes = [] ∧
        ((mainModel st r args).abort).isSome) ∧
    (∀ {σ π α : Type} (st : Stages σ π α) (r : Nat) (args : MainArgs)
        (good : List SeqFile) (f : SeqFile) (rest : List SeqFile),
      args.contigs = good ++ f :: rest →
      args.reads.ftype = FileType.FASTQ →
      2 ≤ args.contigs.length → args.contigs.length ≤ MAX_INPUT_CONTIGS →
      (∀ g ∈ good, validFile g) → (allNames good).Nodup →
      ((f.ftype ≠ FileType.FASTA →
          (mainModel st r args).abort =
            some (Abort.exited (ExitError.contigNotFasta f.filename))) ∧
       (f.ftype = FileType.FASTA → f.records = [] →
          (mainModel st r args).abort =
            some (Abort.exited (ExitError.contigNoSeqs f.filename))) ∧
       (f.ftype = FileType.FASTA → 2 ≤ f.records.length →
          (mainModel st r args).abort =
            some (Abort.exited (ExitError.contigMultipleSeqs f.filename))))) ∧
    (∀ (seen : List String) (f : SeqFile) (rest : List SeqFile) (nm s : String),
      f.ftype = FileType.FASTA → f.records = [(nm, s)] →
      checkContigsLoop seen (f :: rest) =
        if nm ∈ seen then Except.error (ExitError.duplicateContigName nm)
        else checkContigsLoop (nm :: seen) rest) := by
  refine ⟨?_, ?_, ?_⟩
  · intro σ π α st r args hbad
    obtain ⟨f, hf, hinv⟩ := hbad
    cases hc : checkInputsAndRequirements args with
    | error e =>
      rw [mainModel_checkFail st r hc]
      exact ⟨rfl, rfl, rfl⟩
    | ok v =>
      obtain ⟨_, hcc, _⟩ := checkIAR_ok_parts hc
      obtain ⟨_, _, hloop⟩ := checkInputContigs_ok hcc
      exact absurd (checkContigsLoop_ok_valid hloop f hf) hinv
  · intro σ π α st r args good f rest hsplit hr h2 hmax hv hnd
    obtain ⟨seen', heq, _⟩ :=
      @checkContigsLoop_append good [] (f :: rest) hv hnd (by simp)
    have hrun : checkInputContigs args.contigs = checkContigsLoop seen' (f :: rest) := by
      rw [checkInputContigs_run h2 hmax, hsplit, heq]
    refine ⟨?_, ?_, ?_⟩
    · intro hty
      have hcc : checkInputContigs args.contigs =
          Except.error (ExitError.contigNotFasta f.filename) := by
        rw [hrun, checkContigsLoop_notFasta_head hty]
      rw [mainModel_checkFail st r (checkIAR_contigs_err hr hcc)]
    · intro hty hrec
      have hcc : checkInputContigs args.contigs =
          Except.error (ExitError.contigNoSeqs f.filename) := by
        rw [hrun, checkContigsLoop_noSeqs_head hty hrec]
      rw [mainModel_checkFail st r (checkIAR_contigs_err hr hcc)]
    · intro hty hlen2
      have hcc : checkInputContigs args.contigs =
          Except.error (ExitError.contigMultipleSeqs f.filename) := by
        rw [hrun, checkContigsLoop_multi_head hty hlen2]
      rw [mainModel_checkFail st r (checkIAR_contigs_err hr hcc)]
  · intro seen f rest nm s hty hrec
    exact checkContigsLoop_valid_head hty hrec seen rest

/-- C5 witness: the first-failure message evaluated on a concrete invocation
whose second contig file is not in FASTA format. -/
theorem c5_witness :
    (mainModel idStages 0 argsBadContig).abort =
      some (Abort.exited (ExitError.contigNotFasta "bad.txt")) :=
  (c5_per_file_checks.2.1 idStages 0 argsBadContig [fileA] badContig [] rfl rfl
    (by decide) (by decide) (by decide) (by decide)).1 (by decide)

end Trycycler
